import Mathlib

/-!
Verification of the conversations/members resource-access layer of the
Vonage Node SDK (`packages/conversations/lib/conversations.ts`).

The TypeScript code is shallowly embedded over a model `JValue` of JSON-like
JavaScript values.  Field access, optional chaining, truthiness, `delete`,
and property assignment are modelled faithfully; a thrown `TypeError`
(property access on `null`/`undefined`) is modelled as `Option.none` at the
function boundary.  The key-case transformers and `omit` live in the
`@vonage/server-client` package (not part of the sources under audit) and
are modelled from the specification.
-/

set_option autoImplicit false

/-- A JSON-like JavaScript value: `null`, booleans, numbers (integral, which
is all the conversations API uses), strings, arrays, and objects given as an
ordered field list (object-literal order; a later duplicate key overrides an
earlier one, which the lookup function reflects). -/
inductive JValue where
  | null
  | bool (b : Bool)
  | num (n : Int)
  | str (s : String)
  | arr (xs : List JValue)
  | obj (fields : List (String × JValue))

/-- Last-wins lookup of a key in an object field list: a later entry for the
same key overrides an earlier one, matching JavaScript object semantics when
the list is read as an insertion sequence. -/
def getField : List (String × JValue) → String → Option JValue
  | [], _ => none
  | (k, v) :: rest, key =>
    match getField rest key with
    | some w => some w
    | none => if k = key then some v else none

/-- JavaScript property read `v.key` on a value already known to be neither
`null` nor `undefined`: objects look the key up, primitives and arrays give
`undefined` (`none`). -/
def jsGet : JValue → String → Option JValue
  | .obj fields, key => getField fields key
  | _, _ => none

/-- Optional chaining `a?.key`: `undefined` when `a` is nullish, otherwise a
plain property read. -/
def optChain (a : Option JValue) (key : String) : Option JValue :=
  match a with
  | none => none
  | some .null => none
  | some v => jsGet v key

/-- JavaScript truthiness of a possibly-`undefined` value. -/
def truthy : Option JValue → Bool
  | none => false
  | some .null => false
  | some (.bool b) => b
  | some (.num n) => n != 0
  | some (.str s) => s != ""
  | some (.arr _) => true
  | some (.obj _) => true

/-- The `delete v.key` statement: removes every entry for `key` from an
object (a single entry in a well-formed object); no effect on other values. -/
def deleteField (v : JValue) (key : String) : JValue :=
  match v with
  | .obj fields => .obj (fields.filter (fun kv => kv.1 ≠ key))
  | v => v

/-- Overwrites every entry for `key` with the value `v`, in place. -/
def replaceFieldAll : List (String × JValue) → String → JValue → List (String × JValue)
  | [], _, _ => []
  | (k, w) :: rest, key, v =>
    (if k = key then (key, v) else (k, w)) :: replaceFieldAll rest key v

/-- Field-list part of property assignment: overwrite the entry for `key` in
place when present (every entry for it, so last-wins lookup agrees), append
it otherwise. -/
def setFieldFields (fields : List (String × JValue)) (key : String) (v : JValue) :
    List (String × JValue) :=
  if fields.any (fun kv => kv.1 = key) then
    replaceFieldAll fields key v
  else
    fields ++ [(key, v)]

/-- The assignment statement `obj.key = v`: updates objects, and is a silent
no-op on primitives (non-strict-mode JavaScript). -/
def setField (v : JValue) (key : String) (w : JValue) : JValue :=
  match v with
  | .obj fields => .obj (setFieldFields fields key w)
  | v => v

/-- A JavaScript object-literal property whose right-hand side may be
`undefined`, viewed through JSON serialization (an `undefined`-valued
property is absent from the wire body). -/
def setFieldOpt (base : JValue) (key : String) : Option JValue → JValue
  | some v => setField base key v
  | none => deleteField base key

/-- An object literal with possibly-`undefined` property values, viewed
through JSON serialization: `undefined`-valued properties are absent. -/
def objLit (fields : List (String × Option JValue)) : List (String × JValue) :=
  fields.filterMap (fun kv => kv.2.map (fun v => (kv.1, v)))

/-- Modelled from the spec: the shared `Client.transformers.omit` helper of
the SDK's server-client package (not among the sources under audit) drops
the named top-level keys from an object; per the spec's graceful-degradation
guarantee, an absent or non-object argument yields an empty object. -/
def omitKeys (keys : List String) (v : Option JValue) : JValue :=
  match v with
  | some (.obj fields) => .obj (fields.filter (fun kv => ¬ keys.contains kv.1))
  | _ => .obj []

/-- Modelled from the spec: snake_case-to-camelCase key conversion on a
character list — an underscore is dropped and upper-cases the following
character. -/
def snakeToCamelAux : List Char → Bool → List Char
  | [], _ => []
  | c :: rest, up =>
    if c = '_' then snakeToCamelAux rest true
    else (if up then c.toUpper else c) :: snakeToCamelAux rest false

/-- Modelled from the spec: snake_case-to-camelCase conversion of one key. -/
def snakeToCamel (s : String) : String :=
  ⟨snakeToCamelAux s.data false⟩

/-- Modelled from the spec: camelCase-to-snake_case key conversion on a
character list — an upper-case character becomes an underscore followed by
its lower-case form. -/
def camelToSnakeAux : List Char → List Char
  | [] => []
  | c :: rest =>
    if c.isUpper then '_' :: c.toLower :: camelToSnakeAux rest
    else c :: camelToSnakeAux rest

/-- Modelled from the spec: camelCase-to-snake_case conversion of one key. -/
def camelToSnake (s : String) : String :=
  ⟨camelToSnakeAux s.data⟩

mutual

/-- Modelled from the spec: `Client.transformers.camelCaseObjectKeys(v, true)`
— deep conversion of every object key from wire (snake_case) naming to
domain (camelCase) naming, over arbitrarily nested structures. -/
def camelCaseJValue : JValue → JValue
  | .null => .null
  | .bool b => .bool b
  | .num n => .num n
  | .str s => .str s
  | .arr xs => .arr (camelCaseList xs)
  | .obj fields => .obj (camelCaseFields fields)

/-- Deep camelCase conversion of an array's elements. -/
def camelCaseList : List JValue → List JValue
  | [] => []
  | v :: rest => camelCaseJValue v :: camelCaseList rest

/-- Deep camelCase conversion of an object's field list. -/
def camelCaseFields : List (String × JValue) → List (String × JValue)
  | [] => []
  | (k, v) :: rest => (snakeToCamel k, camelCaseJValue v) :: camelCaseFields rest

end

mutual

/-- Modelled from the spec: `Client.transformers.snakeCaseObjectKeys(v, true)`
— deep conversion of every object key from domain (camelCase) naming to wire
(snake_case) naming, over arbitrarily nested structures. -/
def snakeCaseJValue : JValue → JValue
  | .null => .null
  | .bool b => .bool b
  | .num n => .num n
  | .str s => .str s
  | .arr xs => .arr (snakeCaseList xs)
  | .obj fields => .obj (snakeCaseFields fields)

/-- Deep snake_case conversion of an array's elements. -/
def snakeCaseList : List JValue → List JValue
  | [] => []
  | v :: rest => snakeCaseJValue v :: snakeCaseList rest

/-- Deep snake_case conversion of an object's field list. -/
def snakeCaseFields : List (String × JValue) → List (String × JValue)
  | [] => []
  | (k, v) :: rest => (camelToSnake k, snakeCaseJValue v) :: snakeCaseFields rest

end

/-- Modelled from the spec: `Client.transformers.snakeCaseObjectKeys(filter)`
without the deep flag — only the top-level keys of the filter object are
converted to wire naming. -/
def snakeCaseKeysShallow : JValue → JValue
  | .obj fields => .obj (fields.map (fun kv => (camelToSnake kv.1, kv.2)))
  | v => v

/-! ## The transcoding layer (conversations.ts lines 19–85)

Each transcoder returns `none` exactly when the JavaScript function throws a
TypeError (a property access on a nullish value). -/

/-- `apiToConversation` (conversations.ts lines 19–32): saves
`response.properties?.custom_data`, executes `delete response._links`,
deep-camelCases the response, and re-applies the saved literal value when
both the converted `customData` slot and the saved value are truthy.
Throws only when `response` itself is nullish (the unguarded
`response.properties` access). -/
def apiToConversation (response : JValue) : Option JValue :=
  match response with
  | .null => none
  | response =>
    let customData := optChain (jsGet response "properties") "custom_data"
    let conversation := camelCaseJValue (deleteField response "_links")
    if truthy (optChain (optChain (some conversation) "properties") "customData") &&
        truthy customData then
      some (match jsGet conversation "properties", customData with
        | some props, some cd =>
          setField conversation "properties" (setField props "customData" cd)
        | _, _ => conversation)
    else
      some conversation

/-- The state of the `response` argument after `apiToConversation` returns:
the source executes the statement `delete response._links` on its argument
(conversations.ts line 21) and mutates it in no other way — the transformer
builds fresh objects and the later `customData` assignment targets the new
domain object. -/
def apiToConversationArgAfter (response : JValue) : JValue :=
  deleteField response "_links"

/-- `conversationToApi` (conversations.ts lines 34–51): saves
`conversation.properties?.customData`, omits the server-owned fields
`id`, `sequenceNumber`, `timestamp`, `state`, deep-snake_cases the rest,
and re-applies the saved literal value when both the converted `custom_data`
slot and the saved value are truthy.  Throws only when `conversation` is
nullish (the unguarded `conversation.properties` access). -/
def conversationToApi (conversation : JValue) : Option JValue :=
  match conversation with
  | .null => none
  | conversation =>
    let customData := optChain (jsGet conversation "properties") "customData"
    let apiConversation :=
      snakeCaseJValue
        (omitKeys ["id", "sequenceNumber", "timestamp", "state"] (some conversation))
    if truthy (optChain (optChain (some apiConversation) "properties") "custom_data") &&
        truthy customData then
      some (match jsGet apiConversation "properties", customData with
        | some props, some cd =>
          setField apiConversation "properties" (setField props "custom_data" cd)
        | _, _ => apiConversation)
    else
      some apiConversation

/-- `apiToMember` (conversations.ts lines 53–66): spreads the deep-camelCased
response without its `_embedded`/`_links` envelope, then overrides `user`
with the deep-camelCased flattened `response._embedded?.user` (without its
`_links`).  Throws only when `response` is nullish. -/
def apiToMember (response : JValue) : Option JValue :=
  match response with
  | .null => none
  | response =>
    let base := camelCaseJValue (omitKeys ["_embedded", "_links"] (some response))
    let user :=
      camelCaseJValue (omitKeys ["_links"] (optChain (jsGet response "_embedded") "user"))
    some (setField base "user" user)

/-- `memberToApi` (conversations.ts lines 68–85): spreads the deep-snake_cased
member without `id`, `timestamp`, `conversationId`, `initiator`, `invitedBy`,
then overrides `user` with the literal `{id: member.user.id, name:
member.user.name}` and adds `member_id_inviting: member.invitedBy`.
Throws when `member` is nullish, and also when `member.user` is nullish
(the unguarded `member.user.id` access). -/
def memberToApi (member : JValue) : Option JValue :=
  match member with
  | .null => none
  | member =>
    match jsGet member "user" with
    | none => none
    | some .null => none
    | some user =>
      let base :=
        snakeCaseJValue
          (omitKeys ["id", "timestamp", "conversationId", "initiator", "invitedBy"]
            (some member))
      let userObj := JValue.obj (objLit [("id", jsGet user "id"), ("name", jsGet user "name")])
      some (setFieldOpt (setField base "user" userObj) "member_id_inviting"
        (jsGet member "invitedBy"))

/-! ## The HTTP layer: requests, page envelopes and the listing loop -/

/-- One bounded HTTP round trip as issued by the client: method, full URL,
the query-parameter object of a GET page request (already in wire naming),
and the JSON body of a POST/PUT/PATCH request. -/
structure Request where
  method : String
  url : String
  query : Option JValue
  body : Option JValue

/-- The domain page assembled by `getConversationPage` / `getMemberPage`:
the transcoded item list (field `conversations` resp. `members` in the
source), `pageSize` and the raw link block. -/
structure PageResult where
  items : List JValue
  pageSize : Option JValue
  links : Option JValue

/-- Shared envelope parsing of `getConversationPage` / `getMemberPage`
(conversations.ts lines 173–188 and 354–368): the item array is
`resp.data._embedded?.<itemsKey> || []`, each raw item is passed through the
transcoder, and `page_size`/`_links` are read off the envelope.  `none`
models a thrown TypeError: a nullish response body, a truthy non-array in
the item slot (`.map` is not a function), or a transcoder throwing on an
item. -/
def pageOfData (itemsKey : String) (transcode : JValue → Option JValue) (data : JValue) :
    Option PageResult :=
  match data with
  | .null => none
  | data =>
    let raw := optChain (jsGet data "_embedded") itemsKey
    let xs : Option (List JValue) :=
      if truthy raw then
        match raw with
        | some (.arr l) => some l
        | _ => none
      else some []
    match xs.bind (fun l => l.mapM transcode) with
    | none => none
    | some items => some ⟨items, jsGet data "page_size", jsGet data "_links"⟩

/-- Envelope parsing of `getConversationPage`. -/
def conversationPageOfData : JValue → Option PageResult :=
  pageOfData "conversations" apiToConversation

/-- Envelope parsing of `getMemberPage`. -/
def memberPageOfData : JValue → Option PageResult :=
  pageOfData "members" apiToMember

/-- The GET request issued by `getConversationPage`: the filter object's
top-level keys are converted to wire naming (shallow snake_case). -/
def conversationPageRequest (apiHost : String) (filter : JValue) : Request :=
  ⟨"GET", apiHost ++ "/v1/conversations", some (snakeCaseKeysShallow filter), none⟩

/-- `getConversationPage` (conversations.ts lines 173–188) against a pure
server function: one request, then envelope parsing. -/
def getConversationPageRun (apiHost : String) (filter : JValue) (server : Request → JValue) :
    Option PageResult × Request :=
  let req := conversationPageRequest apiHost filter
  (conversationPageOfData (server req), req)

/-- The GET request issued by `getMemberPage`. -/
def memberPageRequest (apiHost conversationId : String) (filter : JValue) : Request :=
  ⟨"GET", apiHost ++ "/v1/conversations/" ++ conversationId ++ "/members",
    some (snakeCaseKeysShallow filter), none⟩

/-- `getMemberPage` (conversations.ts lines 354–368) against a pure server
function: one request, then envelope parsing. -/
def getMemberPageRun (apiHost conversationId : String) (filter : JValue)
    (server : Request → JValue) : Option PageResult × Request :=
  let req := memberPageRequest apiHost conversationId filter
  (memberPageOfData (server req), req)

/-- Splits a character list on a separator; n separators yield n+1 pieces. -/
def splitListOn (c : Char) : List Char → List (List Char)
  | [] => [[]]
  | x :: rest =>
    match splitListOn c rest with
    | y :: ys => if x = c then [] :: y :: ys else (x :: y) :: ys
    | [] => if x = c then [[], []] else [[x]]

/-- Everything after the first question mark of an href (its query string),
empty when there is none. -/
def queryStringChars : List Char → List Char
  | [] => []
  | c :: rest => if c = '?' then rest else queryStringChars rest

/-- One query parameter: the key is everything before the first equals sign,
the value everything after it (empty when there is no equals sign). -/
def paramOfPair (pair : List Char) : String × String :=
  (⟨pair.takeWhile (fun c => c ≠ '=')⟩,
    match pair.dropWhile (fun c => c ≠ '=') with
    | [] => ""
    | _ :: v => (⟨v⟩ : String))

/-- Modelled from the spec: the platform URL parser used by the source (not
part of the repository) — `new URL(href).searchParams.get(key)` returns the
first match among ampersand-separated query parameters, or null when the key
is absent; percent-decoding is omitted, as cursor tokens are opaque strings
the client echoes back verbatim and never constructs or interprets. -/
def searchParamsGet (href : String) (key : String) : Option String :=
  (((splitListOn '&' (queryStringChars href.data)).map paramOfPair).filterMap
    (fun kv => if kv.1 = key then some kv.2 else none)).head?

/-- The cursor computation of the listing generators (conversations.ts lines
143–145 and 320–322): `resp.links?.next ? new
URL(resp.links?.next?.href).searchParams.get('cursor') : null`.  The outer
`none` models the URL constructor throwing (href absent or not a string);
`some none` is a null cursor. -/
def nextCursorOf (links : Option JValue) : Option (Option String) :=
  if truthy (optChain links "next") then
    match optChain (optChain links "next") "href" with
    | some (.str s) => some (searchParamsGet s "cursor")
    | _ => none
  else some none

/-- The do/while loop shared by `listAllConversations` (conversations.ts
lines 135–149) and `listAllMembers` (lines 311–326), run to completion
against a pure server: `fetch` performs one page request and returns the
parsed page together with the request issued; `fuel` bounds the number of
loop iterations (the source has no bound — a run that exhausts the fuel, or
in which a modelled exception is thrown, yields `none`).  Returns the items
delivered in order, the requests issued in order, and the final state of the
caller's filter object, whose `cursor` property the loop assigns
(`params.cursor = next || ''`) on every iteration before testing `next`. -/
def listAllGo (fetch : JValue → Option PageResult × Request) :
    Nat → JValue → Option (List JValue) × List Request × JValue
  | 0, params => (none, [], params)
  | fuel + 1, params =>
    match fetch params with
    | (none, req) => (none, [req], params)
    | (some page, req) =>
      match nextCursorOf page.links with
      | none => (none, [req], params)
      | some next =>
        let params1 := setField params "cursor" (.str (next.getD ""))
        match next with
        | some s =>
          if s = "" then (some page.items, [req], params1)
          else
            let r := listAllGo fetch fuel params1
            (r.1.map (fun more => page.items ++ more), req :: r.2.1, r.2.2)
        | none => (some page.items, [req], params1)

/-- `listAllConversations` run to completion. -/
def listAllConversationsRun (apiHost : String) (server : Request → JValue)
    (fuel : Nat) (params : JValue) : Option (List JValue) × List Request × JValue :=
  listAllGo (fun p => getConversationPageRun apiHost p server) fuel params

/-- `listAllMembers` run to completion. -/
def listAllMembersRun (apiHost conversationId : String) (server : Request → JValue)
    (fuel : Nat) (params : JValue) : Option (List JValue) × List Request × JValue :=
  listAllGo (fun p => getMemberPageRun apiHost conversationId p server) fuel params

/-! ## The single-item operations -/

/-- JavaScript template-literal stringification of an interpolated value, as
used for `${conversation.id}`; the array case is approximated by the empty
string (conversation identifiers are strings, so no claim exercises it). -/
def jsDisplay : Option JValue → String
  | none => "undefined"
  | some .null => "null"
  | some (.bool b) => if b then "true" else "false"
  | some (.num n) => toString n
  | some (.str s) => s
  | some (.arr _) => ""
  | some (.obj _) => "[object Object]"

/-- `createConversation` (conversations.ts lines 209–218): one POST whose
body is `conversationToApi(conversation)`, result transcoded by
`apiToConversation`. -/
def createConversationRun (apiHost : String) (server : Request → JValue)
    (conversation : JValue) : Option JValue × List Request :=
  match conversationToApi conversation with
  | none => (none, [])
  | some body =>
    let req : Request := ⟨"POST", apiHost ++ "/v1/conversations", none, some body⟩
    (apiToConversation (server req), [req])

/-- `getConversation` (conversations.ts lines 236–242): one GET, result
transcoded by `apiToConversation`. -/
def getConversationRun (apiHost : String) (server : Request → JValue)
    (conversationId : String) : Option JValue × List Request :=
  let req : Request := ⟨"GET", apiHost ++ "/v1/conversations/" ++ conversationId, none, none⟩
  (apiToConversation (server req), [req])

/-- `updateConversation` (conversations.ts lines 263–271): one PUT to the
URL carrying `conversation.id`, body `conversationToApi(conversation)`. -/
def updateConversationRun (apiHost : String) (server : Request → JValue)
    (conversation : JValue) : Option JValue × List Request :=
  match conversation with
  | .null => (none, [])
  | conversation =>
    match conversationToApi conversation with
    | none => (none, [])
    | some body =>
      let req : Request :=
        ⟨"PUT", apiHost ++ "/v1/conversations/" ++ jsDisplay (jsGet conversation "id"),
          none, some body⟩
      (apiToConversation (server req), [req])

/-- `deleteConversation` (conversations.ts lines 288–292): one DELETE with
no body; the 204 response body is never parsed and the method resolves with
no value, so the run is just its request trace. -/
def deleteConversationRun (apiHost : String) (conversationId : String) : List Request :=
  [⟨"DELETE", apiHost ++ "/v1/conversations/" ++ conversationId, none, none⟩]

/-- `createMember` (conversations.ts lines 393–403): one POST whose body is
`memberToApi(member)`, result transcoded by `apiToMember`. -/
def createMemberRun (apiHost : String) (server : Request → JValue)
    (conversationId : String) (member : JValue) : Option JValue × List Request :=
  match memberToApi member with
  | none => (none, [])
  | some body =>
    let req : Request :=
      ⟨"POST", apiHost ++ "/v1/conversations/" ++ conversationId ++ "/members", none, some body⟩
    (apiToMember (server req), [req])

/-- `getMember` (conversations.ts lines 422–431): one GET, result transcoded
by `apiToMember`. -/
def getMemberRun (apiHost : String) (server : Request → JValue)
    (conversationId memberId : String) : Option JValue × List Request :=
  let req : Request :=
    ⟨"GET", apiHost ++ "/v1/conversations/" ++ conversationId ++ "/members/" ++ memberId,
      none, none⟩
  (apiToMember (server req), [req])

/-- `getMe` (conversations.ts lines 449–451): delegates to `getMember` with
the fixed identifier `me`. -/
def getMeRun (apiHost : String) (server : Request → JValue) (conversationId : String) :
    Option JValue × List Request :=
  getMemberRun apiHost server conversationId "me"

/-- `updateMember` (conversations.ts lines 481–492): one PATCH whose body is
the `params` argument passed through verbatim — the source applies no
transcoder and no key conversion to it — with the result transcoded by
`apiToMember`. -/
def updateMemberRun (apiHost : String) (server : Request → JValue)
    (conversationId memberId : String) (params : JValue) : Option JValue × List Request :=
  let req : Request :=
    ⟨"PATCH", apiHost ++ "/v1/conversations/" ++ conversationId ++ "/members/" ++ memberId,
      none, some params⟩
  (apiToMember (server req), [req])

/-! ## Concrete stub data for closed scenarios -/

/-- First wire conversation item of the two-page stub scenario. -/
def stubConvItem1 : JValue := .obj [("id", .str "CON-1"), ("display_name", .str "Conv One")]

/-- Second wire conversation item of the two-page stub scenario. -/
def stubConvItem2 : JValue := .obj [("id", .str "CON-2"), ("display_name", .str "Conv Two")]

/-- Stub page 1: one conversation and a next link whose query string carries
the cursor `next`. -/
def stubConvPage1 : JValue :=
  .obj [("page_size", .num 10),
    ("_embedded", .obj [("conversations", .arr [stubConvItem1])]),
    ("_links", .obj [("self", .obj [("href", .str "/v1/conversations")]),
      ("next",
        .obj [("href", .str "https://api.nexmo.com/v1/conversations?cursor=next")])])]

/-- Stub page 2: one conversation and no next link. -/
def stubConvPage2 : JValue :=
  .obj [("page_size", .num 10),
    ("_embedded", .obj [("conversations", .arr [stubConvItem2])]),
    ("_links", .obj [("self", .obj [("href", .str "/v1/conversations")])])]

/-- The stub conversation server: page 1 for the initial request, page 2
once the request presents the cursor `next`. -/
def stubConvServer (r : Request) : JValue :=
  match optChain r.query "cursor" with
  | some (.str "next") => stubConvPage2
  | _ => stubConvPage1

/-- Wire member item for the member stub scenario. -/
def stubMemberItem1 : JValue :=
  .obj [("id", .str "MEM-1"),
    ("_embedded", .obj [("user", .obj [("id", .str "USR-1"), ("name", .str "Alice")])])]

/-- Stub member page 1: one member and a next link carrying cursor `next`. -/
def stubMemberPage1 : JValue :=
  .obj [("page_size", .num 10),
    ("_embedded", .obj [("members", .arr [stubMemberItem1])]),
    ("_links", .obj [("next",
      .obj [("href",
        .str "https://api.nexmo.com/v1/conversations/CON-1/members?cursor=next")])])]

/-- Stub member page 2: one member and no next link. -/
def stubMemberPage2 : JValue :=
  .obj [("page_size", .num 10),
    ("_embedded", .obj [("members", .arr [stubMemberItem1])]),
    ("_links", .obj [])]

/-- The stub member server: page 1 initially, page 2 once the cursor `next`
is presented. -/
def stubMemberServer (r : Request) : JValue :=
  match optChain r.query "cursor" with
  | some (.str "next") => stubMemberPage2
  | _ => stubMemberPage1

/-- Modelled from the spec: the field names of the domain Conversation shape
(§3 of the spec: id, name, displayName, imageUrl, state, sequenceNumber,
properties, timestamp), together with the numbers and callback fields the
repository's tests exercise; the Conversation type itself lives outside the
audited sources. -/
def conversationDomainKeys : List String :=
  ["id", "name", "displayName", "imageUrl", "state", "sequenceNumber",
   "properties", "timestamp", "numbers", "callback"]

/-- The cursor-threading property of one completed listing run: the
caller's filter object ends the run carrying a (possibly empty) cursor
string — the loop assigns `params.cursor` on every iteration — and every
request after the first carries, as its `cursor` query-parameter value,
exactly the non-empty cursor extracted from the previous page's next
link before that next fetch was issued. -/
def cursorThreaded (pageOf : JValue → Option PageResult) (server : Request → JValue)
    (reqs : List Request) (pfinal : JValue) : Prop :=
  (∃ s, jsGet pfinal "cursor" = some (.str s)) ∧
  ∀ i req1 req2, reqs.get? i = some req1 → reqs.get? (i + 1) = some req2 →
    ∃ page c, pageOf (server req1) = some page ∧
      nextCursorOf page.links = some (some c) ∧ c ≠ "" ∧
      optChain req2.query "cursor" = some (.str c)

/-! ## Association-list and key-conversion lemmas -/

theorem getField_append_some (a b : List (String × JValue)) (key : String) (w : JValue)
    (h : getField b key = some w) : getField (a ++ b) key = some w := by
  induction a with
  | nil => simpa using h
  | cons kv rest ih => simp [getField, ih]

theorem getField_append_none (a b : List (String × JValue)) (key : String)
    (h : getField b key = none) : getField (a ++ b) key = getField a key := by
  induction a with
  | nil => simpa using h
  | cons kv rest ih => simp [getField, ih]

theorem getField_eq_none_of_forall (l : List (String × JValue)) (key : String)
    (h : ∀ kv ∈ l, kv.1 ≠ key) : getField l key = none := by
  induction l with
  | nil => rfl
  | cons kv rest ih =>
    have hrest : getField rest key = none := ih (fun kv hm => h kv (List.mem_cons_of_mem _ hm))
    have hk : kv.1 ≠ key := h kv (List.mem_cons_self _ _)
    simp [getField, hrest, hk]

theorem getField_filter (p : String × JValue → Bool) (l : List (String × JValue)) (key : String)
    (hp : ∀ kv : String × JValue, kv.1 = key → p kv = true) :
    getField (l.filter p) key = getField l key := by
  induction l with
  | nil => rfl
  | cons kv rest ih =>
    by_cases hkv : p kv = true
    · rw [List.filter_cons_of_pos hkv]
      simp only [getField, ih]
    · rw [List.filter_cons_of_neg (by simpa using hkv)]
      have hk : kv.1 ≠ key := fun he => hkv (hp kv he)
      rw [ih]
      simp only [getField]
      cases getField rest key with
      | some w => rfl
      | none => simp [hk]

theorem getField_map_of_unique (f : String → String) (g : JValue → JValue)
    (l : List (String × JValue)) (k0 : String)
    (huniq : ∀ kv ∈ l, f kv.1 = f k0 → kv.1 = k0) :
    getField (l.map (fun kv => (f kv.1, g kv.2))) (f k0) = (getField l k0).map g := by
  induction l with
  | nil => rfl
  | cons kv rest ih =>
    have ih2 := ih (fun kv hm => huniq kv (List.mem_cons_of_mem _ hm))
    simp only [List.map_cons, getField, ih2]
    cases h : getField rest k0 with
    | some w => rfl
    | none =>
      simp only [Option.map_none]
      by_cases hk : kv.1 = k0
      · simp [hk]
      · have hf : f kv.1 ≠ f k0 := fun he => hk (huniq kv (List.mem_cons_self _ _) he)
        simp [hk, hf]

theorem getField_eq_none_iff (l : List (String × JValue)) (key : String) :
    getField l key = none ↔ ∀ kv ∈ l, kv.1 ≠ key := by
  induction l with
  | nil => simp [getField]
  | cons kv rest ih =>
    obtain ⟨k, w⟩ := kv
    simp only [getField]
    cases h : getField rest key with
    | some u =>
      refine iff_of_false (fun hcon => Option.noConfusion hcon) ?_
      intro hall
      have hnone := ih.mpr (fun kv2 hm => hall kv2 (List.mem_cons_of_mem _ hm))
      rw [hnone] at h
      exact Option.noConfusion h
    | none =>
      refine Iff.intro ?_ ?_
      · intro hif kv2 hm
        have hif2 : (if k = key then some w else none) = none := hif
        rcases List.mem_cons.mp hm with h3 | h3
        · rw [h3]
          intro he
          rw [if_pos he] at hif2
          exact Option.noConfusion hif2
        · exact ih.mp h kv2 h3
      · intro h2
        have hk : k ≠ key := fun he => h2 (k, w) (List.mem_cons_self _ _) he
        show (if k = key then some w else none) = none
        rw [if_neg hk]

theorem getField_replaceFieldAll_self (l : List (String × JValue)) (key : String) (v : JValue) :
    getField (replaceFieldAll l key v) key = (getField l key).map (fun _ => v) := by
  induction l with
  | nil => rfl
  | cons kv rest ih =>
    obtain ⟨k, w⟩ := kv
    by_cases hk : k = key
    · subst hk
      have hstep : replaceFieldAll ((k, w) :: rest) k v = (k, v) :: replaceFieldAll rest k v := by
        simp [replaceFieldAll]
      rw [hstep]
      simp only [getField, ih]
      cases getField rest k with
      | some u => rfl
      | none => simp
    · have hstep : replaceFieldAll ((k, w) :: rest) key v =
          (k, w) :: replaceFieldAll rest key v := by
        simp [replaceFieldAll, hk]
      rw [hstep]
      simp only [getField, ih]
      cases getField rest key with
      | some u => rfl
      | none => simp [hk]

theorem getField_replaceFieldAll_other (l : List (String × JValue)) (key : String) (v : JValue)
    (k2 : String) (h2 : k2 ≠ key) :
    getField (replaceFieldAll l key v) k2 = getField l k2 := by
  induction l with
  | nil => rfl
  | cons kv rest ih =>
    obtain ⟨k, w⟩ := kv
    by_cases hk : k = key
    · subst hk
      have hstep : replaceFieldAll ((k, w) :: rest) k v = (k, v) :: replaceFieldAll rest k v := by
        simp [replaceFieldAll]
      rw [hstep]
      simp only [getField, ih]
      cases getField rest k2 with
      | some u => rfl
      | none => simp [Ne.symm h2]
    · have hstep : replaceFieldAll ((k, w) :: rest) key v =
          (k, w) :: replaceFieldAll rest key v := by
        simp [replaceFieldAll, hk]
      rw [hstep]
      simp only [getField, ih]

theorem getField_setFieldFields_self (l : List (String × JValue)) (key : String) (v : JValue) :
    getField (setFieldFields l key v) key = some v := by
  unfold setFieldFields
  by_cases h : l.any (fun kv => kv.1 = key) = true
  · rw [if_pos h, getField_replaceFieldAll_self]
    cases hg : getField l key with
    | some u => rfl
    | none =>
      rcases List.any_eq_true.mp h with ⟨kv3, hm3, he3⟩
      exact absurd ((getField_eq_none_iff l key).mp hg kv3 hm3) (by simpa using he3)
  · rw [if_neg h]
    exact getField_append_some _ _ _ _ (by simp [getField])

theorem getField_setFieldFields_other (l : List (String × JValue)) (key : String) (v : JValue)
    (k2 : String) (h2 : k2 ≠ key) :
    getField (setFieldFields l key v) k2 = getField l k2 := by
  unfold setFieldFields
  by_cases h : l.any (fun kv => kv.1 = key) = true
  · rw [if_pos h]
    exact getField_replaceFieldAll_other l key v k2 h2
  · rw [if_neg h]
    exact getField_append_none _ _ _ (by simp [getField, Ne.symm h2])

theorem camelCaseFields_eq_map (l : List (String × JValue)) :
    camelCaseFields l = l.map (fun kv => (snakeToCamel kv.1, camelCaseJValue kv.2)) := by
  induction l with
  | nil => rfl
  | cons kv rest ih => rw [show kv = (kv.1, kv.2) from rfl, camelCaseFields, ih]; rfl

theorem snakeCaseFields_eq_map (l : List (String × JValue)) :
    snakeCaseFields l = l.map (fun kv => (camelToSnake kv.1, snakeCaseJValue kv.2)) := by
  induction l with
  | nil => rfl
  | cons kv rest ih => rw [show kv = (kv.1, kv.2) from rfl, snakeCaseFields, ih]; rfl

theorem camelToSnakeAux_of_no_underscore (l m : List Char) (h : camelToSnakeAux l = m)
    (hm : '_' ∉ m) : l = m := by
  induction l generalizing m with
  | nil => simpa [camelToSnakeAux] using h
  | cons c rest ih =>
    by_cases hc : c.isUpper = true
    · rw [camelToSnakeAux, if_pos hc] at h
      exact absurd (h ▸ List.mem_cons_self _ _) hm
    · rw [camelToSnakeAux, if_neg hc] at h
      cases m with
      | nil => exact absurd h (by simp)
      | cons c2 m2 =>
        have h1 : c = c2 := (List.cons.injEq _ _ _ _ ▸ h).1
        have h2 : camelToSnakeAux rest = m2 := (List.cons.injEq _ _ _ _ ▸ h).2
        rw [h1, ih m2 h2 (fun hmem => hm (List.mem_cons_of_mem _ hmem))]

theorem camelToSnake_cursor_preimage (s : String) (h : camelToSnake s = "cursor") :
    s = "cursor" := by
  have hdata : camelToSnakeAux s.data = "cursor".data := by
    have := congrArg String.data h
    simpa [camelToSnake] using this
  have h2 : s.data = "cursor".data :=
    camelToSnakeAux_of_no_underscore _ _ hdata (by decide)
  cases s with
  | mk data => exact congrArg String.mk (by simpa using h2)

/-- Shape of a successful conversationToApi result: the snake_cased omitted
object, possibly with its `properties` slot overwritten by the
customData-restore assignment. -/
theorem conversationToApi_obj_shape (cf : List (String × JValue)) :
    ∃ x, conversationToApi (JValue.obj cf) = some x ∧
      (x = snakeCaseJValue (omitKeys ["id", "sequenceNumber", "timestamp", "state"]
          (some (JValue.obj cf))) ∨
        ∃ props, x = setField (snakeCaseJValue (omitKeys ["id", "sequenceNumber", "timestamp",
          "state"] (some (JValue.obj cf)))) "properties" props) := by
  simp only [conversationToApi]
  split
  · split
    · exact ⟨_, rfl, Or.inr ⟨_, rfl⟩⟩
    · exact ⟨_, rfl, Or.inl rfl⟩
  · exact ⟨_, rfl, Or.inl rfl⟩

/-- A non-null page envelope without the expected embedded item array parses
as an empty page. -/
theorem pageOfData_missing_items (itemsKey : String) (tc : JValue → Option JValue) (d : JValue)
    (hne : d ≠ JValue.null) (hd : optChain (jsGet d "_embedded") itemsKey = none) :
    pageOfData itemsKey tc d = some ⟨[], jsGet d "page_size", jsGet d "_links"⟩ := by
  cases d with
  | null => exact absurd rfl hne
  | bool b => rfl
  | num n => rfl
  | str s => rfl
  | arr xs => rfl
  | obj fields =>
    simp only [pageOfData, hd, truthy]
    rfl

/-! ## The claims -/

/-- C8: for every conversationId, getMe issues a request identical in shape
(method, path, body) to getMember with the fixed identifier `me`, and
returns the same result — getMe is a fixed-identifier specialization of
getMember with no additional behavior. -/
theorem c8_getMe_is_getMember_me (apiHost : String) (server : Request → JValue)
    (conversationId : String) :
    getMeRun apiHost server conversationId =
      getMemberRun apiHost server conversationId "me" :=
  rfl

/-- C3: against the stub server whose page 1 holds one item plus a next link
carrying cursor `next` and whose page 2 holds one item and no next link,
listAllConversations yields exactly the two items in page order, completes
normally, and issues exactly two page requests, the second carrying the
cursor `next` verbatim. -/
theorem c3_pagination_termination :
    listAllConversationsRun "https://api.nexmo.com" stubConvServer 2 (.obj []) =
      (some [.obj [("id", .str "CON-1"), ("displayName", .str "Conv One")],
          .obj [("id", .str "CON-2"), ("displayName", .str "Conv Two")]],
        [⟨"GET", "https://api.nexmo.com/v1/conversations", some (.obj []), none⟩,
          ⟨"GET", "https://api.nexmo.com/v1/conversations",
            some (.obj [("cursor", .str "next")]), none⟩],
        .obj [("cursor", .str "")]) :=
  rfl

/-- C5 counterexample: apiToConversation does not leave its argument
unchanged — the source executes `delete response._links` on it, so after the
call this concrete wire response has lost its `_links` property. -/
theorem c5_counterexample :
    apiToConversationArgAfter
        (.obj [("name", .str "x"),
          ("_links", .obj [("self", .obj [("href", .str "/v1/conversations/CON-1")])])]) ≠
      .obj [("name", .str "x"),
        ("_links", .obj [("self", .obj [("href", .str "/v1/conversations/CON-1")])])] := by
  intro he
  rw [show apiToConversationArgAfter
      (.obj [("name", .str "x"),
        ("_links", .obj [("self", .obj [("href", .str "/v1/conversations/CON-1")])])]) =
      JValue.obj [("name", .str "x")] from rfl] at he
  simp at he

/-- C5 amended: the transcoders perform no I/O, but apiToConversation
mutates its argument by deleting its `_links` property in place: the wire
response object is unchanged by the call precisely when it carried no
`_links` field. -/
theorem c5_amended_arg_mutation (rf : List (String × JValue)) :
    apiToConversationArgAfter (.obj rf) = .obj rf ↔ ∀ kv ∈ rf, kv.1 ≠ "_links" := by
  show JValue.obj (rf.filter fun kv => kv.1 ≠ "_links") = .obj rf ↔ _
  constructor
  · intro h
    injection h with h2
    intro kv hm
    simpa using List.filter_eq_self.mp h2 kv hm
  · intro h
    have h2 : rf.filter (fun kv => kv.1 ≠ "_links") = rf :=
      List.filter_eq_self.mpr (fun kv hm => by simpa using h kv hm)
    rw [h2]

/-- C2: for every domain conversation (an object over the domain
Conversation field names), the create/update request produced by
conversationToApi contains none of the server-owned fields — id,
sequence_number, timestamp and state are stripped before the remaining
fields are snake_cased into the request body. -/
theorem c2_server_owned_fields_stripped (cf : List (String × JValue))
    (hkeys : ∀ kv ∈ cf, kv.1 ∈ conversationDomainKeys) :
    ∃ api, conversationToApi (.obj cf) = some api ∧
      jsGet api "id" = none ∧ jsGet api "sequence_number" = none ∧
      jsGet api "timestamp" = none ∧ jsGet api "state" = none := by
  obtain ⟨x, hx, hshape⟩ := conversationToApi_obj_shape cf
  have hdec : ∀ k ∈ conversationDomainKeys,
      (¬ (["id", "sequenceNumber", "timestamp", "state"] : List String).contains k) →
      ¬ (["id", "sequence_number", "timestamp", "state"] : List String).contains
        (camelToSnake k) := by decide
  have hbase : ∀ t ∈ (["id", "sequence_number", "timestamp", "state"] : List String),
      getField (snakeCaseFields (cf.filter
        (fun kv => ¬ (["id", "sequenceNumber", "timestamp", "state"] : List String).contains
          kv.1))) t = none := by
    intro t ht
    apply getField_eq_none_of_forall
    intro kv hm
    rw [snakeCaseFields_eq_map] at hm
    rcases List.mem_map.mp hm with ⟨kv0, hm0, he0⟩
    have hmem := List.mem_filter.mp hm0
    have hnotomit : ¬ (["id", "sequenceNumber", "timestamp", "state"] : List String).contains
        kv0.1 := by simpa using hmem.2
    have hno := hdec kv0.1 (hkeys kv0 hmem.1) hnotomit
    rw [← he0]
    intro he
    have he2 : camelToSnake kv0.1 = t := he
    exact hno (by rw [he2]; simpa using ht)
  have hxnone : ∀ t ∈ (["id", "sequence_number", "timestamp", "state"] : List String),
      jsGet x t = none := by
    intro t ht
    have htp : t ≠ "properties" := by
      rcases (by simpa using ht : t = "id" ∨ t = "sequence_number" ∨ t = "timestamp" ∨
        t = "state") with h | h | h | h <;> (rw [h]; simp)
    rcases hshape with h | ⟨props, h⟩
    · rw [h]
      exact hbase t ht
    · rw [h]
      show getField (setFieldFields _ "properties" props) t = none
      rw [getField_setFieldFields_other _ _ _ _ htp]
      exact hbase t ht
  exact ⟨x, hx, hxnone "id" (by simp), hxnone "sequence_number" (by simp),
    hxnone "timestamp" (by simp), hxnone "state" (by simp)⟩

/-- C4 counterexample: the transcoding functions do not all tolerate every
input — memberToApi applied to a member with no user sub-object throws a
TypeError at the unguarded `member.user.id` access (modelled as `none`). -/
theorem c4_counterexample : memberToApi (.obj []) = none :=
  rfl

/-- C4 amended: apiToConversation, conversationToApi and apiToMember return
a value for every non-null input — missing optional fields and extra
unknown fields degrade gracefully — and memberToApi returns a value
whenever the member's user field is present and non-null; only a missing or
null user sub-object makes it fail. -/
theorem c4_amended_transcoders_total (v : JValue) (hv : v ≠ JValue.null) :
    (∃ w, apiToConversation v = some w) ∧ (∃ w, conversationToApi v = some w) ∧
      (∃ w, apiToMember v = some w) ∧
      (∀ u, jsGet v "user" = some u → u ≠ JValue.null → ∃ w, memberToApi v = some w) := by
  refine ⟨?_, ?_, ?_, ?_⟩
  · cases v
    case null => exact absurd rfl hv
    all_goals (simp only [apiToConversation]; split <;> exact ⟨_, rfl⟩)
  · cases v
    case null => exact absurd rfl hv
    all_goals (simp only [conversationToApi]; split <;> exact ⟨_, rfl⟩)
  · cases v
    case null => exact absurd rfl hv
    all_goals exact ⟨_, rfl⟩
  · intro u hu hun
    cases v
    case null => exact absurd rfl hv
    all_goals
      simp only [memberToApi, hu]
      cases u
      case null => exact absurd rfl hun
      all_goals exact ⟨_, rfl⟩

/-- C6 counterexample: updateMember's PATCH body is not the domain-to-wire
member transcoding of its parameters — the body is the params object
verbatim; the member transcoder rejects this concrete params object
outright, and not even key-case conversion is applied to it. -/
theorem c6_counterexample :
    (updateMemberRun "https://api.nexmo.com" (fun _ => JValue.obj []) "CON-1" "MEM-1"
        (.obj [("knockingId", .str "KNOCK-1")])).2 =
      [⟨"PATCH", "https://api.nexmo.com/v1/conversations/CON-1/members/MEM-1", none,
        some (.obj [("knockingId", .str "KNOCK-1")])⟩] ∧
      memberToApi (.obj [("knockingId", .str "KNOCK-1")]) = none ∧
      snakeCaseKeysShallow (.obj [("knockingId", .str "KNOCK-1")]) ≠
        .obj [("knockingId", .str "KNOCK-1")] := by
  refine ⟨rfl, rfl, ?_⟩
  intro he
  rw [show snakeCaseKeysShallow (.obj [("knockingId", .str "KNOCK-1")]) =
      JValue.obj [("knocking_id", .str "KNOCK-1")] from rfl] at he
  simp at he

/-- C6 amended: every single-item operation performs exactly one bounded
round trip; createConversation and updateConversation send conversationToApi
of their argument as the body, createMember sends memberToApi of its
argument, the get and delete operations send no body — but updateMember
sends its params object verbatim as the PATCH body, with no transcoding and
no field-name conversion applied to it. -/
theorem c6_amended_single_round_trip (apiHost : String) (server : Request → JValue)
    (conversation member params : JValue) (conversationId memberId : String)
    (cbody mbody : JValue)
    (hc : conversationToApi conversation = some cbody)
    (hm : memberToApi member = some mbody) :
    (createConversationRun apiHost server conversation).2 =
        [⟨"POST", apiHost ++ "/v1/conversations", none, some cbody⟩] ∧
      (getConversationRun apiHost server conversationId).2 =
        [⟨"GET", apiHost ++ "/v1/conversations/" ++ conversationId, none, none⟩] ∧
      (conversation ≠ JValue.null →
        (updateConversationRun apiHost server conversation).2 =
          [⟨"PUT", apiHost ++ "/v1/conversations/" ++ jsDisplay (jsGet conversation "id"),
            none, some cbody⟩]) ∧
      deleteConversationRun apiHost conversationId =
        [⟨"DELETE", apiHost ++ "/v1/conversations/" ++ conversationId, none, none⟩] ∧
      (createMemberRun apiHost server conversationId member).2 =
        [⟨"POST", apiHost ++ "/v1/conversations/" ++ conversationId ++ "/members", none,
          some mbody⟩] ∧
      (getMemberRun apiHost server conversationId memberId).2 =
        [⟨"GET", apiHost ++ "/v1/conversations/" ++ conversationId ++ "/members/" ++ memberId,
          none, none⟩] ∧
      (getMeRun apiHost server conversationId).2 =
        [⟨"GET", apiHost ++ "/v1/conversations/" ++ conversationId ++ "/members/" ++ "me",
          none, none⟩] ∧
      (updateMemberRun apiHost server conversationId memberId params).2 =
        [⟨"PATCH", apiHost ++ "/v1/conversations/" ++ conversationId ++ "/members/" ++
          memberId, none, some params⟩] := by
  refine ⟨?_, rfl, ?_, rfl, ?_, rfl, rfl, rfl⟩
  · simp [createConversationRun, hc]
  · intro hnn
    cases conversation
    case null => exact absurd rfl hnn
    all_goals simp_all [updateConversationRun]
  · simp [createMemberRun, hm]

/-- C7: a page response whose non-null envelope lacks the expected embedded
item array — no _embedded collection, or _embedded without the
conversations/members array — is treated by getConversationPage and
getMemberPage as an empty page, not as a fatal error. -/
theorem c7_malformed_envelope_is_empty_page (apiHost conversationId : String)
    (filter filterM : JValue) (server serverM : Request → JValue)
    (hcn : server (conversationPageRequest apiHost filter) ≠ JValue.null)
    (hc : optChain (jsGet (server (conversationPageRequest apiHost filter)) "_embedded")
      "conversations" = none)
    (hmn : serverM (memberPageRequest apiHost conversationId filterM) ≠ JValue.null)
    (hm : optChain (jsGet (serverM (memberPageRequest apiHost conversationId filterM))
      "_embedded") "members" = none) :
    (∃ page, (getConversationPageRun apiHost filter server).1 = some page ∧
        page.items = []) ∧
      ∃ page, (getMemberPageRun apiHost conversationId filterM serverM).1 = some page ∧
        page.items = [] :=
  ⟨⟨_, pageOfData_missing_items _ _ _ hcn hc, rfl⟩,
    ⟨_, pageOfData_missing_items _ _ _ hmn hm, rfl⟩⟩

/-- C10: for every member whose user object carries id and name, the user
object inside the createMember wire body built by memberToApi contains
exactly the two fields id and name, taken verbatim from member.user;
any other user sub-fields (such as displayName) are never transmitted,
whatever else the domain member's user object contains. -/
theorem c10_member_user_projection (member : JValue) (uf : List (String × JValue))
    (uid uname : JValue)
    (hu : jsGet member "user" = some (.obj uf))
    (hid : getField uf "id" = some uid)
    (hname : getField uf "name" = some uname) :
    ∃ api, memberToApi member = some api ∧
      jsGet api "user" = some (.obj [("id", uid), ("name", uname)]) := by
  cases member with
  | obj mf =>
    simp only [memberToApi, hu]
    have huser : JValue.obj (objLit [("id", jsGet (JValue.obj uf) "id"),
        ("name", jsGet (JValue.obj uf) "name")]) = .obj [("id", uid), ("name", uname)] := by
      show JValue.obj (objLit [("id", getField uf "id"), ("name", getField uf "name")]) = _
      rw [hid, hname]
      rfl
    rw [huser]
    refine ⟨_, rfl, ?_⟩
    cases hinv : jsGet (JValue.obj mf) "invitedBy" with
    | some w =>
      show getField (setFieldFields (setFieldFields _ "user" _) "member_id_inviting" w)
        "user" = _
      rw [getField_setFieldFields_other _ _ _ _ (by decide)]
      rw [getField_setFieldFields_self]
    | none =>
      show getField ((setFieldFields _ "user" _).filter
        (fun kv => kv.1 ≠ "member_id_inviting")) "user" = _
      rw [getField_filter _ _ _ (fun kv hk => by simp [hk])]
      rw [getField_setFieldFields_self]
  | null => simp [jsGet] at hu
  | bool b => simp [jsGet] at hu
  | num n => simp [jsGet] at hu
  | str s => simp [jsGet] at hu
  | arr xs => simp [jsGet] at hu

/-- C1: customData fidelity in both directions.  For every wire conversation
response whose properties carry a custom_data map, the transcoded domain
conversation's properties.customData is the literal wire map, byte for
byte, even though sibling keys are structurally case-converted; and for
every domain conversation whose properties carry a customData map, the
create/update request's properties.custom_data is the literal domain map.
The uniqueness hypotheses say that no sibling key collides with the
properties/customData slots under case conversion, which holds for every
well-formed wire or domain shape. -/
theorem c1_customData_fidelity
    (rf pf cdf : List (String × JValue))
    (hp : getField rf "properties" = some (.obj pf))
    (hpu : ∀ kv ∈ rf, snakeToCamel kv.1 = "properties" → kv.1 = "properties")
    (hcd : getField pf "custom_data" = some (.obj cdf))
    (hcdu : ∀ kv ∈ pf, snakeToCamel kv.1 = "customData" → kv.1 = "custom_data")
    (cf pg cdg : List (String × JValue))
    (hq : getField cf "properties" = some (.obj pg))
    (hqu : ∀ kv ∈ cf, camelToSnake kv.1 = "properties" → kv.1 = "properties")
    (hce : getField pg "customData" = some (.obj cdg))
    (hceu : ∀ kv ∈ pg, camelToSnake kv.1 = "custom_data" → kv.1 = "customData") :
    (∃ conv, apiToConversation (.obj rf) = some conv ∧
      optChain (jsGet conv "properties") "customData" = some (.obj cdf)) ∧
    (∃ api, conversationToApi (.obj cf) = some api ∧
      optChain (jsGet api "properties") "custom_data" = some (.obj cdg)) := by
  constructor
  · have hA : optChain (getField rf "properties") "custom_data" = some (JValue.obj cdf) := by
      rw [hp]
      exact hcd
    have hfilter : getField (rf.filter (fun kv => kv.1 ≠ "_links")) "properties" =
        some (JValue.obj pf) := by
      rw [getField_filter _ _ _ (fun kv hk => by simp [hk])]
      exact hp
    have hmapP : getField (camelCaseFields (rf.filter (fun kv => kv.1 ≠ "_links")))
        "properties" = some (JValue.obj (camelCaseFields pf)) := by
      rw [camelCaseFields_eq_map]
      have huniq : ∀ kv ∈ rf.filter (fun kv => kv.1 ≠ "_links"),
          snakeToCamel kv.1 = snakeToCamel "properties" → kv.1 = "properties" := by
        intro kv hm he
        exact hpu kv (List.mem_filter.mp hm).1
          (by rwa [show snakeToCamel "properties" = "properties" from rfl] at he)
      have h0 := getField_map_of_unique snakeToCamel camelCaseJValue _ "properties" huniq
      rw [show snakeToCamel "properties" = "properties" from rfl] at h0
      rw [h0, hfilter]
      rfl
    have hmapC : getField (camelCaseFields pf) "customData" =
        some (JValue.obj (camelCaseFields cdf)) := by
      rw [camelCaseFields_eq_map]
      have huniq : ∀ kv ∈ pf,
          snakeToCamel kv.1 = snakeToCamel "custom_data" → kv.1 = "custom_data" := by
        intro kv hm he
        exact hcdu kv hm
          (by rwa [show snakeToCamel "custom_data" = "customData" from rfl] at he)
      have h0 := getField_map_of_unique snakeToCamel camelCaseJValue pf "custom_data" huniq
      rw [show snakeToCamel "custom_data" = "customData" from rfl] at h0
      rw [h0, hcd]
      rfl
    have hrun : apiToConversation (JValue.obj rf) =
        some (setField (JValue.obj (camelCaseFields (rf.filter (fun kv => kv.1 ≠ "_links"))))
          "properties"
          (setField (JValue.obj (camelCaseFields pf)) "customData" (JValue.obj cdf))) := by
      have hA2 : optChain (jsGet (JValue.obj rf) "properties") "custom_data" =
          some (JValue.obj cdf) := hA
      have hB : optChain (some (JValue.obj (camelCaseFields (rf.filter
          (fun kv => kv.1 ≠ "_links"))))) "properties" =
          some (JValue.obj (camelCaseFields pf)) := hmapP
      have hC : optChain (some (JValue.obj (camelCaseFields pf))) "customData" =
          some (JValue.obj (camelCaseFields cdf)) := hmapC
      have hD : jsGet (JValue.obj (camelCaseFields (rf.filter
          (fun kv => kv.1 ≠ "_links")))) "properties" =
          some (JValue.obj (camelCaseFields pf)) := hmapP
      simp only [apiToConversation, deleteField, camelCaseJValue]
      rw [hA2, hB, hC, hD]
      rfl
    refine ⟨_, hrun, ?_⟩
    show optChain (getField (setFieldFields _ "properties"
      (setField (JValue.obj (camelCaseFields pf)) "customData" (JValue.obj cdf)))
      "properties") "customData" = _
    rw [getField_setFieldFields_self]
    show getField (setFieldFields (camelCaseFields pf) "customData" (JValue.obj cdf))
      "customData" = _
    rw [getField_setFieldFields_self]
  · have hA : optChain (getField cf "properties") "customData" = some (JValue.obj cdg) := by
      rw [hq]
      exact hce
    have hfilter : getField (cf.filter (fun kv =>
        ¬ (["id", "sequenceNumber", "timestamp", "state"] : List String).contains kv.1))
        "properties" = some (JValue.obj pg) := by
      rw [getField_filter _ _ _ (fun kv hk => by simp [hk])]
      exact hq
    have hmapP : getField (snakeCaseFields (cf.filter (fun kv =>
        ¬ (["id", "sequenceNumber", "timestamp", "state"] : List String).contains kv.1)))
        "properties" = some (JValue.obj (snakeCaseFields pg)) := by
      rw [snakeCaseFields_eq_map]
      have huniq : ∀ kv ∈ cf.filter (fun kv =>
          ¬ (["id", "sequenceNumber", "timestamp", "state"] : List String).contains kv.1),
          camelToSnake kv.1 = camelToSnake "properties" → kv.1 = "properties" := by
        intro kv hm he
        exact hqu kv (List.mem_filter.mp hm).1
          (by rwa [show camelToSnake "properties" = "properties" from rfl] at he)
      have h0 := getField_map_of_unique camelToSnake snakeCaseJValue _ "properties" huniq
      rw [show camelToSnake "properties" = "properties" from rfl] at h0
      rw [h0, hfilter]
      rfl
    have hmapC : getField (snakeCaseFields pg) "custom_data" =
        some (JValue.obj (snakeCaseFields cdg)) := by
      rw [snakeCaseFields_eq_map]
      have huniq : ∀ kv ∈ pg,
          camelToSnake kv.1 = camelToSnake "customData" → kv.1 = "customData" := by
        intro kv hm he
        exact hceu kv hm
          (by rwa [show camelToSnake "customData" = "custom_data" from rfl] at he)
      have h0 := getField_map_of_unique camelToSnake snakeCaseJValue pg "customData" huniq
      rw [show camelToSnake "customData" = "custom_data" from rfl] at h0
      rw [h0, hce]
      rfl
    have hrun : conversationToApi (JValue.obj cf) =
        some (setField (JValue.obj (snakeCaseFields (cf.filter (fun kv =>
            ¬ (["id", "sequenceNumber", "timestamp", "state"] : List String).contains kv.1))))
          "properties"
          (setField (JValue.obj (snakeCaseFields pg)) "custom_data" (JValue.obj cdg))) := by
      have hA2 : optChain (jsGet (JValue.obj cf) "properties") "customData" =
          some (JValue.obj cdg) := hA
      have hB : optChain (some (JValue.obj (snakeCaseFields (cf.filter (fun kv =>
          ¬ (["id", "sequenceNumber", "timestamp", "state"] : List String).contains kv.1)))))
          "properties" = some (JValue.obj (snakeCaseFields pg)) := hmapP
      have hC : optChain (some (JValue.obj (snakeCaseFields pg))) "custom_data" =
          some (JValue.obj (snakeCaseFields cdg)) := hmapC
      have hD : jsGet (JValue.obj (snakeCaseFields (cf.filter (fun kv =>
          ¬ (["id", "sequenceNumber", "timestamp", "state"] : List String).contains kv.1))))
          "properties" = some (JValue.obj (snakeCaseFields pg)) := hmapP
      simp only [conversationToApi, omitKeys, snakeCaseJValue]
      rw [hA2, hB, hC, hD]
      rfl
    refine ⟨_, hrun, ?_⟩
    show optChain (getField (setFieldFields _ "properties"
      (setField (JValue.obj (snakeCaseFields pg)) "custom_data" (JValue.obj cdg)))
      "properties") "custom_data" = _
    rw [getField_setFieldFields_self]
    show getField (setFieldFields (snakeCaseFields pg) "custom_data" (JValue.obj cdg))
      "custom_data" = _
    rw [getField_setFieldFields_self]

/-- A completed listing run's first issued request is the fetch of the
initial filter state. -/
theorem listAllGo_first_request (fetch : JValue → Option PageResult × Request) (fuel : Nat)
    (p : JValue) (items : List JValue) (reqs : List Request) (pfin : JValue)
    (h : listAllGo fetch fuel p = (some items, reqs, pfin)) :
    ∃ rest, reqs = (fetch p).2 :: rest := by
  cases fuel with
  | zero => exact absurd h (by simp [listAllGo])
  | succ n =>
    rcases hfp : fetch p with ⟨pg, req⟩
    simp only [listAllGo, hfp] at h
    cases pg with
    | none => simp at h
    | some page =>
      cases hnx : nextCursorOf page.links with
      | none => simp [hnx] at h
      | some next =>
        cases next with
        | none =>
          simp [hnx] at h
          exact ⟨[], h.2.1.symm⟩
        | some s =>
          by_cases hs : s = ""
          · simp [hnx, hs] at h
            exact ⟨[], h.2.1.symm⟩
          · simp [hnx, hs] at h
            exact ⟨_, h.2.1.symm⟩

/-- The cursor-threading invariant of the listing loop, for any page parser
and request builder whose query is the shallow-snake_cased filter. -/
theorem listAllGo_cursor_thread
    (pageOf : JValue → Option PageResult) (server : Request → JValue)
    (mkReq : JValue → Request)
    (hq : ∀ p, (mkReq p).query = some (snakeCaseKeysShallow p)) :
    ∀ (fuel : Nat) (pf : List (String × JValue)) (items : List JValue)
      (reqs : List Request) (pfinal : JValue),
      listAllGo (fun p => (pageOf (server (mkReq p)), mkReq p)) fuel (.obj pf) =
        (some items, reqs, pfinal) →
      (∃ s, jsGet pfinal "cursor" = some (.str s)) ∧
      (∀ i req1 req2, reqs.get? i = some req1 → reqs.get? (i + 1) = some req2 →
        ∃ page c, pageOf (server req1) = some page ∧
          nextCursorOf page.links = some (some c) ∧ c ≠ "" ∧
          optChain req2.query "cursor" = some (.str c)) := by
  intro fuel
  induction fuel with
  | zero =>
    intro pf items reqs pfinal h
    exact absurd h (by simp [listAllGo])
  | succ n ih =>
    intro pf items reqs pfinal h
    simp only [listAllGo] at h
    have hfin : ∀ (c : String),
        ∃ s, jsGet (setField (JValue.obj pf) "cursor" (JValue.str c)) "cursor" =
          some (JValue.str s) :=
      fun c => ⟨c, by
        show getField (setFieldFields pf "cursor" (JValue.str c)) "cursor" = _
        rw [getField_setFieldFields_self]⟩
    cases hpage : pageOf (server (mkReq (JValue.obj pf))) with
    | none => simp [hpage] at h
    | some page =>
      cases hnx : nextCursorOf page.links with
      | none => simp [hpage, hnx] at h
      | some next =>
        cases next with
        | none =>
          simp [hpage, hnx] at h
          obtain ⟨h1, h2, h3⟩ := h
          constructor
          · rw [← h3]
            exact hfin _
          · intro i req1 req2 hr1 hr2
            rw [← h2] at hr2
            cases i <;> simp [List.get?] at hr2
        | some s =>
          by_cases hs : s = ""
          · simp [hpage, hnx, hs] at h
            obtain ⟨h1, h2, h3⟩ := h
            constructor
            · rw [← h3]
              exact hfin _
            · intro i req1 req2 hr1 hr2
              rw [← h2] at hr2
              cases i <;> simp [List.get?] at hr2
          · simp [hpage, hnx, hs] at h
            rcases hrec : listAllGo (fun p => (pageOf (server (mkReq p)), mkReq p)) n
                (setField (JValue.obj pf) "cursor" (JValue.str s)) with ⟨res, reqs2, pfin2⟩
            rw [hrec] at h
            simp only [Prod.mk.injEq] at h
            obtain ⟨h1, h2, h3⟩ := h
            cases res with
            | none => simp at h1
            | some its2 =>
              have hrec2 : listAllGo (fun p => (pageOf (server (mkReq p)), mkReq p)) n
                  (JValue.obj (setFieldFields pf "cursor" (JValue.str s))) =
                  (some its2, reqs2, pfin2) := by
                rw [← hrec]
                rfl
              have hIH := ih (setFieldFields pf "cursor" (JValue.str s)) its2 reqs2 pfin2 hrec2
              constructor
              · rw [← h3]
                exact hIH.1
              · intro i req1 req2 hr1 hr2
                rw [← h2] at hr1 hr2
                cases i with
                | zero =>
                  simp only [List.get?, Option.some.injEq] at hr1 hr2
                  obtain ⟨rest, hrest⟩ :=
                    listAllGo_first_request _ n _ its2 reqs2 pfin2 hrec2
                  rw [hrest] at hr2
                  simp only [List.get?, Option.some.injEq] at hr2
                  refine ⟨page, s, ?_, hnx, hs, ?_⟩
                  · rw [← hr1]
                    exact hpage
                  · rw [← hr2, hq]
                    show optChain (some (snakeCaseKeysShallow
                      (JValue.obj (setFieldFields pf "cursor" (JValue.str s))))) "cursor" =
                      some (JValue.str s)
                    show getField ((setFieldFields pf "cursor" (JValue.str s)).map
                      (fun kv => (camelToSnake kv.1, kv.2))) "cursor" = some (JValue.str s)
                    have h0 := getField_map_of_unique camelToSnake (fun x => x)
                      (setFieldFields pf "cursor" (JValue.str s)) "cursor"
                      (fun kv hm he => camelToSnake_cursor_preimage kv.1
                        (by rwa [show camelToSnake "cursor" = "cursor" from rfl] at he))
                    rw [show camelToSnake "cursor" = "cursor" from rfl] at h0
                    rw [getField_setFieldFields_self] at h0
                    exact h0
                | succ j =>
                  simp only [List.get?] at hr1 hr2
                  exact hIH.2 j req1 req2 hr1 hr2

/-- C9: during every completed listAllConversations / listAllMembers run,
the caller-supplied filter object is mutated in place to thread the cursor
forward: each page request after the first carries, as its cursor filter
value, the cursor extracted from the previous page's next link (assigned to
the filter's cursor field before that fetch), and the same filter object
retains a mutated cursor value after the sequence ends. -/
theorem c9_filter_cursor_threading
    (apiHost conversationId : String) (server serverM : Request → JValue)
    (fuel fuelM : Nat) (pf pfM : List (String × JValue))
    (items itemsM : List JValue) (reqs reqsM : List Request) (pfinal pfinalM : JValue)
    (hc : listAllConversationsRun apiHost server fuel (.obj pf) = (some items, reqs, pfinal))
    (hm : listAllMembersRun apiHost conversationId serverM fuelM (.obj pfM) =
      (some itemsM, reqsM, pfinalM)) :
    cursorThreaded conversationPageOfData server reqs pfinal ∧
      cursorThreaded memberPageOfData serverM reqsM pfinalM :=
  ⟨listAllGo_cursor_thread conversationPageOfData server
      (conversationPageRequest apiHost) (fun _ => rfl) fuel pf items reqs pfinal hc,
    listAllGo_cursor_thread memberPageOfData serverM
      (memberPageRequest apiHost conversationId) (fun _ => rfl) fuelM pfM itemsM reqsM
      pfinalM hm⟩

/-- Witness for C1 at a concrete wire/domain conversation pair with a mixed
casing custom data map. -/
theorem c1_customData_fidelity_witness :
    (∃ conv, apiToConversation (.obj [("id", .str "CON-1"), ("display_name", .str "D"),
        ("properties", .obj [("ttl", .num 86400), ("custom_sort_key", .str "foo"),
          ("custom_data", .obj [("foo", .str "bar"), ("fizzBuzz", .num 123),
            ("baz_bat", .bool true)])]),
        ("_links", .obj [("self", .obj [("href", .str "/v1/conversations/CON-1")])])]) =
        some conv ∧
      optChain (jsGet conv "properties") "customData" =
        some (.obj [("foo", .str "bar"), ("fizzBuzz", .num 123), ("baz_bat", .bool true)])) ∧
    (∃ api, conversationToApi (.obj [("id", .str "CON-1"), ("displayName", .str "D"),
        ("properties", .obj [("ttl", .num 86400), ("customSortKey", .str "foo"),
          ("customData", .obj [("foo", .str "bar"), ("fizzBuzz", .num 123),
            ("baz_bat", .bool true)])])]) = some api ∧
      optChain (jsGet api "properties") "custom_data" =
        some (.obj [("foo", .str "bar"), ("fizzBuzz", .num 123), ("baz_bat", .bool true)])) :=
  c1_customData_fidelity
    [("id", .str "CON-1"), ("display_name", .str "D"),
      ("properties", .obj [("ttl", .num 86400), ("custom_sort_key", .str "foo"),
        ("custom_data", .obj [("foo", .str "bar"), ("fizzBuzz", .num 123),
          ("baz_bat", .bool true)])]),
      ("_links", .obj [("self", .obj [("href", .str "/v1/conversations/CON-1")])])]
    [("ttl", .num 86400), ("custom_sort_key", .str "foo"),
      ("custom_data", .obj [("foo", .str "bar"), ("fizzBuzz", .num 123),
        ("baz_bat", .bool true)])]
    [("foo", .str "bar"), ("fizzBuzz", .num 123), ("baz_bat", .bool true)]
    rfl (by decide) rfl (by decide)
    [("id", .str "CON-1"), ("displayName", .str "D"),
      ("properties", .obj [("ttl", .num 86400), ("customSortKey", .str "foo"),
        ("customData", .obj [("foo", .str "bar"), ("fizzBuzz", .num 123),
          ("baz_bat", .bool true)])])]
    [("ttl", .num 86400), ("customSortKey", .str "foo"),
      ("customData", .obj [("foo", .str "bar"), ("fizzBuzz", .num 123),
        ("baz_bat", .bool true)])]
    [("foo", .str "bar"), ("fizzBuzz", .num 123), ("baz_bat", .bool true)]
    rfl (by decide) rfl (by decide)

/-- Witness for C2 at a concrete domain conversation carrying every
server-owned field. -/
theorem c2_server_owned_fields_stripped_witness :
    ∃ api, conversationToApi (.obj [("id", .str "CON-1"), ("name", .str "Chat"),
        ("displayName", .str "Chat"), ("state", .str "ACTIVE"), ("sequenceNumber", .num 0),
        ("properties", .obj [("ttl", .num 60)]),
        ("timestamp", .obj [("created", .str "2024-01-17T13:45:56.000Z")])]) = some api ∧
      jsGet api "id" = none ∧ jsGet api "sequence_number" = none ∧
      jsGet api "timestamp" = none ∧ jsGet api "state" = none :=
  c2_server_owned_fields_stripped
    [("id", .str "CON-1"), ("name", .str "Chat"), ("displayName", .str "Chat"),
      ("state", .str "ACTIVE"), ("sequenceNumber", .num 0),
      ("properties", .obj [("ttl", .num 60)]),
      ("timestamp", .obj [("created", .str "2024-01-17T13:45:56.000Z")])]
    (by decide)

/-- Witness for C4 amended at a concrete member carrying a user object. -/
theorem c4_amended_transcoders_total_witness :
    (∃ w, apiToConversation (.obj [("user", .obj [("id", .str "USR-1")])]) = some w) ∧
      (∃ w, conversationToApi (.obj [("user", .obj [("id", .str "USR-1")])]) = some w) ∧
      (∃ w, apiToMember (.obj [("user", .obj [("id", .str "USR-1")])]) = some w) ∧
      (∃ w, memberToApi (.obj [("user", .obj [("id", .str "USR-1")])]) = some w) :=
  have h := c4_amended_transcoders_total (.obj [("user", .obj [("id", .str "USR-1")])])
    (by simp)
  ⟨h.1, h.2.1, h.2.2.1,
    h.2.2.2 (.obj [("id", .str "USR-1")]) rfl (by simp)⟩

/-- Witness for C6 amended at concrete inputs, with the inner non-null
premise of the updateConversation component also discharged. -/
theorem c6_amended_single_round_trip_witness :
    (createConversationRun "https://api.nexmo.com" (fun _ => JValue.obj [])
        (.obj [("name", .str "My Conversation")])).2 =
      [⟨"POST", "https://api.nexmo.com" ++ "/v1/conversations", none,
        some (.obj [("name", .str "My Conversation")])⟩] ∧
    (getConversationRun "https://api.nexmo.com" (fun _ => JValue.obj []) "CON-1").2 =
      [⟨"GET", "https://api.nexmo.com" ++ "/v1/conversations/" ++ "CON-1", none, none⟩] ∧
    (updateConversationRun "https://api.nexmo.com" (fun _ => JValue.obj [])
        (.obj [("name", .str "My Conversation")])).2 =
      [⟨"PUT", "https://api.nexmo.com" ++ "/v1/conversations/" ++
        jsDisplay (jsGet (.obj [("name", .str "My Conversation")]) "id"), none,
        some (.obj [("name", .str "My Conversation")])⟩] ∧
    deleteConversationRun "https://api.nexmo.com" "CON-1" =
      [⟨"DELETE", "https://api.nexmo.com" ++ "/v1/conversations/" ++ "CON-1", none, none⟩] ∧
    (createMemberRun "https://api.nexmo.com" (fun _ => JValue.obj []) "CON-1"
        (.obj [("user", .obj [("id", .str "USR-1"), ("name", .str "Alice")])])).2 =
      [⟨"POST", "https://api.nexmo.com" ++ "/v1/conversations/" ++ "CON-1" ++ "/members",
        none,
        some (.obj [("user", .obj [("id", .str "USR-1"), ("name", .str "Alice")])])⟩] ∧
    (getMemberRun "https://api.nexmo.com" (fun _ => JValue.obj []) "CON-1" "MEM-1").2 =
      [⟨"GET", "https://api.nexmo.com" ++ "/v1/conversations/" ++ "CON-1" ++ "/members/" ++
        "MEM-1", none, none⟩] ∧
    (getMeRun "https://api.nexmo.com" (fun _ => JValue.obj []) "CON-1").2 =
      [⟨"GET", "https://api.nexmo.com" ++ "/v1/conversations/" ++ "CON-1" ++ "/members/" ++
        "me", none, none⟩] ∧
    (updateMemberRun "https://api.nexmo.com" (fun _ => JValue.obj []) "CON-1" "MEM-1"
        (.obj [("state", .str "left")])).2 =
      [⟨"PATCH", "https://api.nexmo.com" ++ "/v1/conversations/" ++ "CON-1" ++ "/members/" ++
        "MEM-1", none, some (.obj [("state", .str "left")])⟩] :=
  have h := c6_amended_single_round_trip "https://api.nexmo.com" (fun _ => JValue.obj [])
    (.obj [("name", .str "My Conversation")])
    (.obj [("user", .obj [("id", .str "USR-1"), ("name", .str "Alice")])])
    (.obj [("state", .str "left")]) "CON-1" "MEM-1"
    (.obj [("name", .str "My Conversation")])
    (.obj [("user", .obj [("id", .str "USR-1"), ("name", .str "Alice")])])
    rfl rfl
  ⟨h.1, h.2.1, h.2.2.1 (by simp), h.2.2.2.1, h.2.2.2.2.1, h.2.2.2.2.2.1,
    h.2.2.2.2.2.2.1, h.2.2.2.2.2.2.2⟩

/-- Witness for C7 at a concrete envelope with no embedded collection. -/
theorem c7_malformed_envelope_is_empty_page_witness :
    (∃ page, (getConversationPageRun "https://api.nexmo.com" (.obj [])
        (fun _ => JValue.obj [("page_size", .num 10)])).1 = some page ∧
      page.items = []) ∧
    ∃ page, (getMemberPageRun "https://api.nexmo.com" "CON-1" (.obj [])
        (fun _ => JValue.obj [("page_size", .num 10)])).1 = some page ∧
      page.items = [] :=
  c7_malformed_envelope_is_empty_page "https://api.nexmo.com" "CON-1" (.obj []) (.obj [])
    (fun _ => JValue.obj [("page_size", .num 10)])
    (fun _ => JValue.obj [("page_size", .num 10)])
    (by simp) rfl (by simp) rfl

/-- Witness for C9 at the two-page stub servers. -/
theorem c9_filter_cursor_threading_witness :
    cursorThreaded conversationPageOfData stubConvServer
      [⟨"GET", "https://api.nexmo.com/v1/conversations", some (.obj []), none⟩,
        ⟨"GET", "https://api.nexmo.com/v1/conversations",
          some (.obj [("cursor", .str "next")]), none⟩]
      (.obj [("cursor", .str "")]) ∧
    cursorThreaded memberPageOfData stubMemberServer
      [⟨"GET", "https://api.nexmo.com/v1/conversations/CON-1/members", some (.obj []), none⟩,
        ⟨"GET", "https://api.nexmo.com/v1/conversations/CON-1/members",
          some (.obj [("cursor", .str "next")]), none⟩]
      (.obj [("cursor", .str "")]) :=
  c9_filter_cursor_threading "https://api.nexmo.com" "CON-1" stubConvServer stubMemberServer
    2 2 [] []
    [.obj [("id", .str "CON-1"), ("displayName", .str "Conv One")],
      .obj [("id", .str "CON-2"), ("displayName", .str "Conv Two")]]
    [.obj [("id", .str "MEM-1"),
        ("user", .obj [("id", .str "USR-1"), ("name", .str "Alice")])],
      .obj [("id", .str "MEM-1"),
        ("user", .obj [("id", .str "USR-1"), ("name", .str "Alice")])]]
    [⟨"GET", "https://api.nexmo.com/v1/conversations", some (.obj []), none⟩,
      ⟨"GET", "https://api.nexmo.com/v1/conversations",
        some (.obj [("cursor", .str "next")]), none⟩]
    [⟨"GET", "https://api.nexmo.com/v1/conversations/CON-1/members", some (.obj []), none⟩,
      ⟨"GET", "https://api.nexmo.com/v1/conversations/CON-1/members",
        some (.obj [("cursor", .str "next")]), none⟩]
    (.obj [("cursor", .str "")]) (.obj [("cursor", .str "")])
    rfl rfl

/-- Witness for C10 at a concrete member whose user also carries a
displayName that must not be transmitted. -/
theorem c10_member_user_projection_witness :
    ∃ api, memberToApi (.obj [("user", .obj [("id", .str "USR-1"), ("name", .str "Alice"),
        ("displayName", .str "Al")])]) = some api ∧
      jsGet api "user" = some (.obj [("id", .str "USR-1"), ("name", .str "Alice")]) :=
  c10_member_user_projection
    (.obj [("user", .obj [("id", .str "USR-1"), ("name", .str "Alice"),
      ("displayName", .str "Al")])])
    [("id", .str "USR-1"), ("name", .str "Alice"), ("displayName", .str "Al")]
    (.str "USR-1") (.str "Alice") rfl rfl rfl
